import Mathlib

/-!
# Verification of the helix website build scripts

Shallow embedding of `src/website/scripts/list-of-themes.js` and
`src/website/scripts/termshots.js`, together with proofs settling the
frozen claims about theme-inheritance resolution, palette
normalization, scope fallback resolution, and the scaffold generator.

JS values relevant to these scripts (parsed TOML documents and the
colors derived from them) are strings, arrays, objects, and
`undefined`; objects are modelled as insertion-ordered association
lists, matching `for key in obj` iteration order and the way
`Object.assign`/property assignment keeps an existing key's position
and appends a fresh key at the end.
-/

set_option autoImplicit false
set_option maxRecDepth 8000

/-- A JavaScript value as used by the theme scripts: a string, an array,
an object (insertion-ordered key/value list), or `undefined`. -/
inductive JVal where
  | str : String → JVal
  | arr : List JVal → JVal
  | obj : List (String × JVal) → JVal
  | undef : JVal
  deriving Repr

/-- First-match association-list lookup: `Map.get` / property access on
objects whose keys are unique. -/
def lookupA {α : Type} : List (String × α) → String → Option α
  | [], _ => none
  | (k, v) :: rest, key => if k = key then some v else lookupA rest key

/-- Property assignment / `Object.assign(target, { [key]: v })`:
replaces the value at an existing key keeping its position, appends a
fresh key at the end. -/
def setKey {α : Type} : List (String × α) → String → α → List (String × α)
  | [], key, v => [(key, v)]
  | (k, w) :: rest, key, v =>
      if k = key then (k, v) :: rest else (k, w) :: setKey rest key v

/-- JS truthiness for the values in this model: `undefined` and the
empty string are falsy; arrays and objects are truthy. -/
def truthy : JVal → Bool
  | JVal.str s => s ≠ ""
  | JVal.arr _ => true
  | JVal.obj _ => true
  | JVal.undef => false

/-- `isObject` from list-of-themes.js:
`item && typeof item === "object" && !Array.isArray(item)`. -/
def isObject : JVal → Bool
  | JVal.obj _ => true
  | _ => false

mutual

/-- Structural size of a `JVal`, used as (a bound for) the merge
loop's fuel. -/
def jvalSize : JVal → Nat
  | JVal.str _ => 1
  | JVal.arr vs => 1 + jvalListSize vs
  | JVal.obj es => 1 + jvalEntriesSize es
  | JVal.undef => 1

def jvalListSize : List JVal → Nat
  | [] => 0
  | v :: vs => 1 + jvalSize v + jvalListSize vs

def jvalEntriesSize : List (String × JVal) → Nat
  | [] => 0
  | (_, v) :: es => 1 + jvalSize v + jvalEntriesSize es

end

/-- Fuel-indexed form of the `for key in source` loop of `mergeDeep`,
iterating the source's entries in insertion order and updating the
target: a source key with a non-object value is skipped entirely; a
source key whose value is an object either overwrites a truthy target
value outright (`Object.assign(target, { [key]: source[key] })`) or,
when the target value is absent/falsy, is merged into a fresh `{}`
installed at that key (`Object.assign(target, { [key]: {} });
mergeDeep(target[key], source[key])`). The fuel argument only makes the
recursion structural; `mergeEntriesF_congr` below shows the result is
the same for every fuel of at least `sizeOf source`, which the JS
recursion (descending strictly into the source) never exceeds, so the
fuel-free `mergeEntries` wrapper is the function the script computes. -/
def mergeEntriesF : Nat → List (String × JVal) → List (String × JVal) → List (String × JVal)
  | 0, t, _ => t
  | _ + 1, t, [] => t
  | fuel + 1, t, (k, JVal.obj sv) :: rest =>
      let newVal :=
        match lookupA t k with
        | some tv =>
            if truthy tv then JVal.obj sv else JVal.obj (mergeEntriesF fuel [] sv)
        | none => JVal.obj (mergeEntriesF fuel [] sv)
      mergeEntriesF fuel (setKey t k newVal) rest
  | fuel + 1, t, (_, JVal.str _) :: rest => mergeEntriesF fuel t rest
  | fuel + 1, t, (_, JVal.arr _) :: rest => mergeEntriesF fuel t rest
  | fuel + 1, t, (_, JVal.undef) :: rest => mergeEntriesF fuel t rest

/-- The `for key in source` loop of `mergeDeep`, fuel-free. -/
def mergeEntries (t s : List (String × JVal)) : List (String × JVal) :=
  mergeEntriesF (jvalEntriesSize s) t s

/-- The fuel is irrelevant from `jvalEntriesSize s` upwards:
`mergeEntriesF` computes the same result for any two sufficient fuels,
so `mergeEntries` deserves its fuel-free reading. -/
theorem mergeEntriesF_congr :
    ∀ (bound : Nat) (s : List (String × JVal)), jvalEntriesSize s ≤ bound →
      ∀ (n m : Nat) (t : List (String × JVal)), jvalEntriesSize s ≤ n → jvalEntriesSize s ≤ m →
        mergeEntriesF n t s = mergeEntriesF m t s := by
  intro bound
  induction bound with
  | zero =>
      intro s hs n m t hn hm
      cases s with
      | nil => cases n <;> cases m <;> rfl
      | cons hd tl =>
          exfalso
          obtain ⟨k, v⟩ := hd
          simp only [jvalEntriesSize] at hs
          omega
  | succ b ih =>
      intro s hs n m t hn hm
      cases s with
      | nil =>
          cases n <;> cases m <;> rfl
      | cons hd rest =>
          obtain ⟨k, v⟩ := hd
          have hszrest : jvalEntriesSize ((k, v) :: rest) =
              1 + jvalSize v + jvalEntriesSize rest := by
            simp only [jvalEntriesSize]
          have hvpos : 1 ≤ jvalSize v := by
            cases v <;> simp only [jvalSize] <;> omega
          cases n with
          | zero => omega
          | succ n' =>
              cases m with
              | zero => omega
              | succ m' =>
                  have hrb : jvalEntriesSize rest ≤ b := by omega
                  have hrn : jvalEntriesSize rest ≤ n' := by omega
                  have hrm : jvalEntriesSize rest ≤ m' := by omega
                  cases v with
                  | obj sv =>
                      have hsz : jvalSize (JVal.obj sv) = 1 + jvalEntriesSize sv := by
                        simp only [jvalSize]
                      have hsvb : jvalEntriesSize sv ≤ b := by omega
                      have hsvn : jvalEntriesSize sv ≤ n' := by omega
                      have hsvm : jvalEntriesSize sv ≤ m' := by omega
                      simp only [mergeEntriesF]
                      rw [ih sv hsvb n' m' _ hsvn hsvm, ih rest hrb n' m' _ hrn hrm]
                  | str s0 =>
                      simp only [mergeEntriesF]
                      exact ih rest hrb n' m' t hrn hrm
                  | arr a0 =>
                      simp only [mergeEntriesF]
                      exact ih rest hrb n' m' t hrn hrm
                  | undef =>
                      simp only [mergeEntriesF]
                      exact ih rest hrb n' m' t hrn hrm

/-- Any sufficient fuel computes `mergeEntries`. -/
theorem mergeEntriesF_eq (n : Nat) (t s : List (String × JVal))
    (h : jvalEntriesSize s ≤ n) :
    mergeEntriesF n t s = mergeEntries t s :=
  mergeEntriesF_congr (jvalEntriesSize s) s le_rfl n (jvalEntriesSize s) t h le_rfl

/-- The defining equations of the JS loop, fuel-free: empty source. -/
theorem mergeEntries_nil (t : List (String × JVal)) : mergeEntries t [] = t := rfl

/-- The defining equations of the JS loop, fuel-free: a source entry
holding an object. -/
theorem mergeEntries_cons_obj (t : List (String × JVal)) (k : String)
    (sv rest : List (String × JVal)) :
    mergeEntries t ((k, JVal.obj sv) :: rest) =
      mergeEntries
        (setKey t k
          (match lookupA t k with
           | some tv =>
               if truthy tv then JVal.obj sv else JVal.obj (mergeEntries [] sv)
           | none => JVal.obj (mergeEntries [] sv)))
        rest := by
  have hsz : jvalEntriesSize ((k, JVal.obj sv) :: rest) =
      1 + (1 + jvalEntriesSize sv) + jvalEntriesSize rest := by
    simp only [jvalEntriesSize, jvalSize]
  have h1 : jvalEntriesSize ((k, JVal.obj sv) :: rest) =
      (jvalEntriesSize ((k, JVal.obj sv) :: rest) - 1) + 1 := by omega
  show mergeEntriesF (jvalEntriesSize ((k, JVal.obj sv) :: rest)) t _ = _
  rw [h1]
  simp only [mergeEntriesF]
  rw [mergeEntriesF_eq _ _ sv (by omega), mergeEntriesF_eq _ _ rest (by omega)]

/-- The defining equations of the JS loop, fuel-free: a source entry
holding a non-object value is skipped. -/
theorem mergeEntries_cons_nonobj (t : List (String × JVal)) (k : String) (v : JVal)
    (rest : List (String × JVal)) (hv : isObject v = false) :
    mergeEntries t ((k, v) :: rest) = mergeEntries t rest := by
  have hvpos : 1 ≤ jvalSize v := by
    cases v <;> simp only [jvalSize] <;> omega
  have hsz : jvalEntriesSize ((k, v) :: rest) =
      1 + jvalSize v + jvalEntriesSize rest := by
    simp only [jvalEntriesSize]
  have h1 : jvalEntriesSize ((k, v) :: rest) =
      (jvalEntriesSize ((k, v) :: rest) - 1) + 1 := by omega
  show mergeEntriesF (jvalEntriesSize ((k, v) :: rest)) t _ = _
  rw [h1]
  cases v with
  | obj sv => simp [isObject] at hv
  | str s0 => simp only [mergeEntriesF]; exact mergeEntriesF_eq _ _ rest (by omega)
  | arr a0 => simp only [mergeEntriesF]; exact mergeEntriesF_eq _ _ rest (by omega)
  | undef => simp only [mergeEntriesF]; exact mergeEntriesF_eq _ _ rest (by omega)

/-- `mergeDeep(target, source)` from list-of-themes.js (lines 19-37)
with a single source: when both are objects, runs the key loop
(`mergeEntries`); otherwise the target is returned unchanged. The JS
function mutates `target` in place and returns it, so this value is
both the function's result and the target object's post-state. -/
def mergeDeep (target source : JVal) : JVal :=
  match target, source with
  | JVal.obj t, JVal.obj s => JVal.obj (mergeEntries t s)
  | t, _ => t

example :
    mergeDeep (JVal.obj [("keyword", JVal.str "#00ff00")])
        (JVal.obj [("keyword", JVal.str "#ff0000")]) =
      JVal.obj [("keyword", JVal.str "#00ff00")] := rfl

/-- Replace the value stored at an existing key; a no-op when the key is
absent. Models mutating, through a reference obtained from
`themeMap.get`, an object the map already holds: the map's key set
never changes, only the object stored there. -/
def updateA {α : Type} : List (String × α) → String → α → List (String × α)
  | [], _, _ => []
  | (k, w) :: rest, key, v =>
      if k = key then (k, v) :: rest else (k, w) :: updateA rest key v

/-- A reference to a theme document. The JS pipeline passes around
references to heap-allocated objects: every document that flows through
`resolveInheritedTheme` is (an alias of) some named entry of the shared
`themeMap`, or `undefined` when a parent lookup failed. Sub-objects
installed by `mergeDeep` are never mutated afterwards (the recursive
branch only ever mutates a freshly created `{}`), so aliasing is fully
captured by naming the map entry a document lives at. -/
inductive JRef where
  | name : String → JRef
  | undef : JRef
  deriving Repr

/-- Dereference: read the current document behind a reference
(`themeMap.get`; `undefined` when the name is absent). -/
def derefTheme (tm : List (String × JVal)) : JRef → JVal
  | JRef.name n => (lookupA tm n).getD JVal.undef
  | JRef.undef => JVal.undef

/-- `resolveInheritedTheme` from list-of-themes.js (lines 75-85) acting
on the shared theme map. If the document has an `inherits` key naming a
parent, the parent object found in the map is merged with the child
twice (`const merged = mergeDeep(inheritedTheme, theme); return
[themeName, mergeDeep(inheritedTheme, theme)]`), the merge target being
the live parent object, whose map entry is therefore updated; the
returned document is that same (mutated) parent object, i.e. a
reference to the parent's name. Without an `inherits` key the pair and
the map are returned unchanged. (An `inherits` value that is not a
string makes `themeMap.get` return `undefined`, and `mergeDeep` then
returns its `undefined` target; a document that is itself `undefined`
or a string would make the JS `"inherits" in theme` test throw, which
no claim exercises — the model returns the pair unchanged there.) -/
def resolveInheritedTheme (tm : List (String × JVal)) (p : String × JRef) :
    (String × JRef) × List (String × JVal) :=
  match derefTheme tm p.2 with
  | JVal.obj es =>
      match lookupA es "inherits" with
      | some (JVal.str parentName) =>
          let inheritedTheme := (lookupA tm parentName).getD JVal.undef
          let merged := mergeDeep (mergeDeep inheritedTheme (JVal.obj es)) (JVal.obj es)
          ((p.1, JRef.name parentName), updateA tm parentName merged)
      | some _ => ((p.1, JRef.undef), tm)
      | none => (p, tm)
  | _ => (p, tm)

/-- One `.map(resolveInheritedTheme)` pass over the theme list,
threading the shared theme map through the per-theme mutations in list
order. -/
def resolvePass : List (String × JVal) → List (String × JRef) →
    List (String × JRef) × List (String × JVal)
  | tm, [] => ([], tm)
  | tm, p :: rest =>
      match resolveInheritedTheme tm p with
      | (p', tm') =>
          match resolvePass tm' rest with
          | (rest', tmf) => (p' :: rest', tmf)

/-- The `themes` pipeline (lines 87-93):
`unmergedThemes.map(resolveInheritedTheme).map(resolveInheritedTheme)`,
with `themeMap = new Map(unmergedThemes)` as the initial shared map and
each list entry initially referring to its own map entry. -/
def themesAfterTwoPasses (unmergedThemes : List (String × JVal)) :
    List (String × JRef) × List (String × JVal) :=
  match resolvePass unmergedThemes (unmergedThemes.map (fun nd => (nd.1, JRef.name nd.1))) with
  | (ps1, tm1) => resolvePass tm1 ps1

/-- The document the two-pass pipeline leaves behind for the theme
named `n` (the final value of the object its resolved pair refers to). -/
def finalThemeDoc (unmergedThemes : List (String × JVal)) (n : String) : JVal :=
  match themesAfterTwoPasses unmergedThemes with
  | (ps, tm) =>
      match lookupA ps n with
      | some ref => derefTheme tm ref
      | none => JVal.undef

/-! ## Scope resolution and palette normalization (lines 102-227) -/

/-- JS property read `v[k]`: for objects, the stored value or
`undefined`; string and array primitives have none of the properties
read by this script, so the result is `undefined`. (Reading a property
of `undefined` itself throws in JS; the script only does so for themes
lacking `ui.background`, which no claim exercises.) -/
def jField (v : JVal) (k : String) : JVal :=
  match v with
  | JVal.obj es => (lookupA es k).getD JVal.undef
  | _ => JVal.undef

/-- JS `a || b`. -/
def orJS (v d : JVal) : JVal := if truthy v then v else d

/-- `background` (lines 107-110): `{ bg: theme["ui.background"].bg,
fg: theme["ui.background"].fg || "#ffaaaa" }`. -/
def background (theme : JVal) : JVal :=
  JVal.obj
    [("bg", jField (jField theme "ui.background") "bg"),
     ("fg", orJS (jField (jField theme "ui.background") "fg") (JVal.str "#ffaaaa"))]

/-- `getColor` (lines 112-120): a string value becomes `{ fg: value }`;
a falsy (absent) value defers to the fallback thunk; any other value is
returned as-is. -/
def getColor (theme : JVal) (key : String) (fallback : Unit → JVal) : JVal :=
  match jField theme key with
  | JVal.str s => JVal.obj [("fg", JVal.str s)]
  | v => if truthy v then v else fallback ()

/-- `getFallbackColor` (lines 122-130): textually identical logic to
`getColor`. -/
def getFallbackColor (theme : JVal) (primaryKey : String) (fallbackFn : Unit → JVal) : JVal :=
  match jField theme primaryKey with
  | JVal.str s => JVal.obj [("fg", JVal.str s)]
  | v => if truthy v then v else fallbackFn ()

def getUiBackground (theme : JVal) : JVal := background theme

def getVariable (theme : JVal) : JVal :=
  getColor theme "variable" (fun _ => jField (background theme) "fg")

def getFunction (theme : JVal) : JVal :=
  getFallbackColor theme "function" (fun _ => getVariable theme)

def getMacro (theme : JVal) : JVal :=
  getFallbackColor theme "function.macro" (fun _ => getFunction theme)

def getKeyword (theme : JVal) : JVal :=
  getFallbackColor theme "keyword" (fun _ => getVariable theme)

def getUiLinenr (theme : JVal) : JVal :=
  getColor theme "ui.linenr" (fun _ => jField (background theme) "fg")

def getOperator (theme : JVal) : JVal :=
  getColor theme "operator" (fun _ => jField (background theme) "fg")

def getPunctuation (theme : JVal) : JVal :=
  getColor theme "punctuation" (fun _ => jField (background theme) "fg")

def getConstant (theme : JVal) : JVal :=
  getFallbackColor theme "constant" (fun _ => getVariable theme)

def getConstantNumeric (theme : JVal) : JVal :=
  getFallbackColor theme "constant.numeric" (fun _ => getConstant theme)

def getPunctuationDelimiter (theme : JVal) : JVal :=
  getFallbackColor theme "punctuation.delimiter" (fun _ => getPunctuation theme)

def getVariableParameter (theme : JVal) : JVal :=
  getFallbackColor theme "variable.parameter" (fun _ => getVariable theme)

def getComment (theme : JVal) : JVal :=
  getColor theme "comment" (fun _ => jField (background theme) "fg")

def getType (theme : JVal) : JVal :=
  getFallbackColor theme "type" (fun _ => getVariable theme)

def getTypeBuiltin (theme : JVal) : JVal :=
  getFallbackColor theme "type.builtin" (fun _ => getType theme)

/-- `getUiStatusline` (lines 153-160): `{}` when the scope is falsy,
otherwise its own `fg`/`bg`, each defaulting to the corresponding
background channel. -/
def getUiStatusline (theme : JVal) : JVal :=
  let uiStatusline := jField theme "ui.statusline"
  if truthy uiStatusline then
    JVal.obj
      [("fg", orJS (jField uiStatusline "fg") (jField (background theme) "fg")),
       ("bg", orJS (jField uiStatusline "bg") (jField (background theme) "bg"))]
  else JVal.obj []

def getHighlight (theme : JVal) : JVal :=
  getColor theme "ui.highlight" (fun _ => getUiBackground theme)

def getUiCursorline (theme : JVal) : JVal :=
  getFallbackColor theme "ui.cursorline" (fun _ => getHighlight theme)

def getUiCursorlinePrimary (theme : JVal) : JVal :=
  getFallbackColor theme "ui.cursorline.primary" (fun _ => getUiCursorline theme)

def getUiLinenrSelected (theme : JVal) : JVal :=
  getFallbackColor theme "ui.linenr.selected" (fun _ => getHighlight theme)

def getUiVirtualInlayHint (theme : JVal) : JVal :=
  getColor theme "ui.virtual.inlay-hint" (fun _ => jField (background theme) "fg")

def getUiVirtualIndentGuide (theme : JVal) : JVal :=
  getFallbackColor theme "ui.virtual.indent-guide" (fun _ => getUiVirtualInlayHint theme)

def getUiVirtualRuler (theme : JVal) : JVal :=
  getFallbackColor theme "ui.virtual.ruler" (fun _ => getUiVirtualIndentGuide theme)

def getUiVirtual (theme : JVal) : JVal :=
  getFallbackColor theme "ui.virtual" (fun _ => getUiVirtualInlayHint theme)

/-- `getUiCursor` (lines 171-172): reads the theme key
`"ui.cursor.primary"` and falls back directly to the background
foreground. -/
def getUiCursor (theme : JVal) : JVal :=
  getFallbackColor theme "ui.cursor.primary" (fun _ => jField (background theme) "fg")

/-- The resolved scope map built at lines 186-205, in source insertion
order. -/
def resolveScopes (theme : JVal) : List (String × JVal) :=
  [("ui.background", getUiBackground theme),
   ("keyword", getKeyword theme),
   ("variable", getVariable theme),
   ("variable.parameter", getVariableParameter theme),
   ("ui.statusline", getUiStatusline theme),
   ("ui.linenr", getUiLinenr theme),
   ("function", getFunction theme),
   ("function.macro", getMacro theme),
   ("operator", getOperator theme),
   ("punctuation", getPunctuation theme),
   ("punctuation.delimiter", getPunctuationDelimiter theme),
   ("constant", getConstant theme),
   ("constant.numeric", getConstantNumeric theme),
   ("comment", getComment theme),
   ("type.builtin", getTypeBuiltin theme),
   ("ui.cursorline.primary", getUiCursorlinePrimary theme),
   ("ui.linenr.selected", getUiLinenrSelected theme),
   ("ui.virtual.ruler", getUiVirtualRuler theme),
   ("ui.virtual", getUiVirtual theme),
   ("ui.cursor", getUiCursor theme)]

/-- `isHex` (line 213): `s.startsWith("#")`. Since `"#"` is a single
character, starting with it is exactly having `#` as first character,
which is the formulation used here. -/
def isHex (s : String) : Bool :=
  match s.data with
  | [] => false
  | c :: _ => c == '#'

/-- Property assignment `color[k] = x` on a color object (strict-mode
JS would throw on a primitive, but the script only assigns after
observing `typeof color[k] === "string"`, which a primitive color never
satisfies). -/
def setField (v : JVal) (k : String) (x : JVal) : JVal :=
  match v with
  | JVal.obj es => JVal.obj (setKey es k x)
  | other => other

/-- One of the two identical per-field if-blocks of the normalization
map (lines 214-223): when `color[k]` is a string not starting with `#`,
assign `color[k] = palette[color[k]]`; otherwise leave the color
unchanged. -/
def normalizeFieldJS (palette color : JVal) (k : String) : JVal :=
  match jField color k with
  | JVal.str s => if isHex s then color else setField color k (jField palette s)
  | _ => color

/-- The per-color body of the normalization map (lines 212-224): the
`fg` block runs first, then the `bg` block on its result. -/
def normalizeColor (palette color : JVal) : JVal :=
  normalizeFieldJS palette (normalizeFieldJS palette color "fg") "bg"

/-- One theme's full scope processing (lines 181-227): build the
resolved scope map, then normalize every scope color against the
theme's own `palette` table. -/
def processTheme (theme : JVal) : List (String × JVal) :=
  (resolveScopes theme).map (fun sc => (sc.1, normalizeColor (jField theme "palette") sc.2))

/-! ## Scaffold generator (termshots.js) -/

/-- `generateFileContents` from termshots.js (lines 16-26): fold over
the folder's file listing, skipping `index.astro` (the file being
generated) and passing each remaining file's base name —
`file.slice(0, -6)`, i.e. the name with its last six characters
(`.astro`) removed — to the line generator. -/
def generateFileContents (files : List String) (contentGenerator : String → String → String) :
    String :=
  files.foldl
    (fun contents file =>
      if file = "index.astro" then contents
      else contents ++ "\n" ++ contentGenerator (file.take (file.length - 6)) file)
    ""

/-- The import-statement generator passed at lines 39-42:
`` (baseName, fileName) => `import ${baseName} from "./${fileName}";` ``. -/
def importStatementGen (baseName fileName : String) : String :=
  "import " ++ baseName ++ " from \"./" ++ fileName ++ "\";"

/-- The exported-object line generator passed at lines 44-47:
`` (baseName) => `\t${baseName},` ``. -/
def exportedObjectGen (baseName : String) (_fileName : String) : String :=
  "\t" ++ baseName ++ ","

/-- The fixed disclaimer comment (lines 32-35). -/
def disclaimer : String :=
  "/*\n * This file was generated by `pnpm termshots`\n */"

/-- `indexAstroContent` (lines 49-56): the full generated barrel-file
text as a function of the folder's file listing. -/
def indexAstroContent (filesInFolder : List String) : String :=
  "---\n" ++ disclaimer ++ "\n" ++ generateFileContents filesInFolder importStatementGen ++
    "\n\nexport const T = \x7b" ++ generateFileContents filesInFolder exportedObjectGen ++
    "\n\x7d;\n---"

/-! ## Lemmas about the merge -/

theorem lookupA_setKey_ne {α : Type} (es : List (String × α)) (k key : String) (v : α)
    (h : k ≠ key) : lookupA (setKey es k v) key = lookupA es key := by
  induction es with
  | nil => simp [setKey, lookupA, h]
  | cons hd rest ih =>
      obtain ⟨k0, w⟩ := hd
      by_cases hk : k0 = k
      · subst hk
        simp [setKey, lookupA, h]
      · simp [setKey, lookupA, hk, ih]

/-- Keys at which every source entry is a non-object are untouched by
the merge loop: the target's binding there survives unchanged. This is
the formal content of "`mergeDeep` skips source keys with non-object
values" and of "keys present only in the target survive". -/
theorem lookupA_mergeEntries_of_no_obj (s : List (String × JVal)) (f : String)
    (hs : ∀ p ∈ s, p.1 = f → isObject p.2 = false) :
    ∀ t, lookupA (mergeEntries t s) f = lookupA t f := by
  induction s with
  | nil => intro t; rw [mergeEntries_nil]
  | cons hd rest ih =>
      have hrest : ∀ p ∈ rest, p.1 = f → isObject p.2 = false := by
        intro p hp; exact hs p (List.mem_cons_of_mem hd hp)
      obtain ⟨k, v⟩ := hd
      intro t
      cases v with
      | obj sv =>
          have hk : k ≠ f := by
            intro hkf
            have := hs (k, JVal.obj sv) (List.mem_cons_self _ _) hkf
            simp [isObject] at this
          rw [mergeEntries_cons_obj, ih hrest, lookupA_setKey_ne _ _ _ _ hk]
      | str s0 => rw [mergeEntries_cons_nonobj t k (JVal.str s0) rest rfl, ih hrest]
      | arr a0 => rw [mergeEntries_cons_nonobj t k (JVal.arr a0) rest rfl, ih hrest]
      | undef => rw [mergeEntries_cons_nonobj t k JVal.undef rest rfl, ih hrest]

/-- Specialization: a key absent from the source is untouched by the
merge. -/
theorem lookupA_mergeEntries_of_not_mem (s : List (String × JVal)) (f : String)
    (hs : ∀ p ∈ s, p.1 ≠ f) :
    ∀ t, lookupA (mergeEntries t s) f = lookupA t f := by
  apply lookupA_mergeEntries_of_no_obj
  intro p hp hpf
  exact absurd hpf (hs p hp)

theorem lookupA_eq_none {α : Type} (es : List (String × α)) (key : String)
    (h : ∀ p ∈ es, p.1 ≠ key) : lookupA es key = none := by
  induction es with
  | nil => rfl
  | cons hd rest ih =>
      obtain ⟨k, w⟩ := hd
      have hk : k ≠ key := h (k, w) (List.mem_cons_self _ _)
      rw [lookupA, if_neg hk]
      exact ih fun p hp => h p (List.mem_cons_of_mem _ hp)

theorem mem_setKey_ne {α : Type} (es : List (String × α)) (k key : String) (v : α)
    (p : String × α) (hp : p ∈ setKey es k v) (hpk : p.1 = key) (h : k ≠ key) : p ∈ es := by
  induction es with
  | nil =>
      simp [setKey] at hp
      subst hp
      exact absurd hpk h
  | cons hd rest ih =>
      obtain ⟨k0, w⟩ := hd
      by_cases hk : k0 = k
      · subst hk
        rw [setKey, if_pos rfl] at hp
        rcases List.mem_cons.mp hp with heq | hmem
        · subst heq
          exact absurd hpk h
        · exact List.mem_cons_of_mem _ hmem
      · rw [setKey, if_neg hk] at hp
        rcases List.mem_cons.mp hp with heq | hmem
        · subst heq
          exact List.mem_cons_self _ _
        · exact List.mem_cons_of_mem _ (ih hmem)

/-- Entries of the merge result at a key that no source entry holds
with an object value are entries the target already had: the merge
neither adds nor rewrites bindings at such a key. -/
theorem mem_mergeEntries_of_no_obj (s : List (String × JVal)) (key : String)
    (hs : ∀ p ∈ s, p.1 = key → isObject p.2 = false) :
    ∀ t, ∀ p ∈ mergeEntries t s, p.1 = key → p ∈ t := by
  induction s with
  | nil =>
      intro t p hp _
      rwa [mergeEntries_nil] at hp
  | cons hd rest ih =>
      have hrest : ∀ p ∈ rest, p.1 = key → isObject p.2 = false :=
        fun p hp => hs p (List.mem_cons_of_mem hd hp)
      obtain ⟨k, v⟩ := hd
      intro t p hp hpk
      cases v with
      | obj sv =>
          have hk : k ≠ key := by
            intro hkk
            have := hs (k, JVal.obj sv) (List.mem_cons_self _ _) hkk
            simp [isObject] at this
          rw [mergeEntries_cons_obj] at hp
          exact mem_setKey_ne _ _ _ _ p (ih hrest _ p hp hpk) hpk hk
      | str s0 =>
          rw [mergeEntries_cons_nonobj t k (JVal.str s0) rest rfl] at hp
          exact ih hrest _ p hp hpk
      | arr a0 =>
          rw [mergeEntries_cons_nonobj t k (JVal.arr a0) rest rfl] at hp
          exact ih hrest _ p hp hpk
      | undef =>
          rw [mergeEntries_cons_nonobj t k JVal.undef rest rfl] at hp
          exact ih hrest _ p hp hpk

/-! ## Claims C1-C3: inheritance merge semantics -/

/-- C1. The claim states the inheritance merge semantics of `mergeDeep` /
`resolveInheritedTheme`: a child key holding a nested mapping should be
recursively merged (child winning leaf conflicts) and a child key
holding a non-mapping value should replace the parent's value outright.
The code does neither: the `for key in source` loop only processes
source keys with object values, so a child's scalar override is
silently dropped. Evaluated at the failing input — parent
`{keyword: "#00ff00"}`, child `{inherits: "parent", keyword: "#ff0000"}`
— the resolved document still maps `keyword` to the parent's
`"#00ff00"`, and `mergeDeep` leaves the parent entirely unchanged,
contradicting the claim (and the code's own comment, "recursively
override theme B's styles with theme A's styles"). -/
theorem c1_merge_drops_child_scalar_override :
    (let tm : List (String × JVal) :=
      [("parent", JVal.obj [("keyword", JVal.str "#00ff00")]),
       ("child", JVal.obj [("inherits", JVal.str "parent"), ("keyword", JVal.str "#ff0000")])]
     let r := resolveInheritedTheme tm ("child", JRef.name "child")
     jField (derefTheme r.2 r.1.2) "keyword") = JVal.str "#00ff00" ∧
    mergeDeep (JVal.obj [("keyword", JVal.str "#00ff00")])
        (JVal.obj [("keyword", JVal.str "#ff0000")]) =
      JVal.obj [("keyword", JVal.str "#00ff00")] :=
  ⟨rfl, rfl⟩

/-- C2. The claim states that resolving a child's inheritance leaves the
looked-up parent document in the shared theme map unchanged. It does
not: `mergeDeep(inheritedTheme, theme)` mutates the live parent object.
At the concrete input — parent `{}`, child
`{inherits: "parent", ui: {}}` — the map's parent entry afterwards is
`{ui: {}}`, no longer the original `{}`. -/
theorem c2_resolution_mutates_parent :
    (let tm : List (String × JVal) :=
      [("parent", JVal.obj []),
       ("child", JVal.obj [("inherits", JVal.str "parent"), ("ui", JVal.obj [])])]
     let r := resolveInheritedTheme tm ("child", JRef.name "child")
     lookupA r.2 "parent") = some (JVal.obj [("ui", JVal.obj [])]) ∧
    (let tm : List (String × JVal) :=
      [("parent", JVal.obj []),
       ("child", JVal.obj [("inherits", JVal.str "parent"), ("ui", JVal.obj [])])]
     lookupA tm "parent") = some (JVal.obj []) ∧
    some (JVal.obj [("ui", JVal.obj [])]) ≠ some (JVal.obj ([] : List (String × JVal))) := by
  refine ⟨rfl, rfl, ?_⟩
  simp

/-- C3. A theme document without an `inherits` field is returned
unchanged by `resolveInheritedTheme`, and the shared theme map is left
untouched: resolution is the identity on such documents. -/
theorem c3_no_inherits_identity (tm : List (String × JVal)) (p : String × JRef)
    (es : List (String × JVal))
    (hdoc : derefTheme tm p.2 = JVal.obj es)
    (hnoinh : lookupA es "inherits" = none) :
    resolveInheritedTheme tm p = (p, tm) := by
  simp [resolveInheritedTheme, hdoc, hnoinh]

/-- Witness for C3 at a concrete input. -/
theorem c3_no_inherits_identity_witness :
    resolveInheritedTheme [("plain", JVal.obj [("keyword", JVal.str "#111111")])]
        ("plain", JRef.name "plain") =
      (("plain", JRef.name "plain"), [("plain", JVal.obj [("keyword", JVal.str "#111111")])]) :=
  c3_no_inherits_identity _ _ [("keyword", JVal.str "#111111")] rfl rfl

/-! ## Claim C4: two-pass resolution of a two-level chain -/

/-- C4, counterexample to the claim as stated. The claim quantifies over
every theme set *containing* a chain `a → b → c`. In the set
`{a, b, c, d}` below, `a` inherits `b`, `b` inherits `c`, and the field
`f` is present in `c` (as `"red"`) and missing from both `a` and `b` —
yet after exactly two resolution passes `a`'s document carries `d`'s
value `{fg: "blue"}` at `f`, not `c`'s `"red"`: resolving `d` (which
also inherits `c` and holds `f` as a nested table) mutated the shared
`c` document before `a`'s second pass read it. -/
theorem c4_interference_counterexample :
    (let themesList : List (String × JVal) :=
      [("a", JVal.obj [("inherits", JVal.str "b")]),
       ("b", JVal.obj [("inherits", JVal.str "c")]),
       ("c", JVal.obj [("f", JVal.str "red")]),
       ("d", JVal.obj [("inherits", JVal.str "c"), ("f", JVal.obj [("fg", JVal.str "blue")])])]
     jField (finalThemeDoc themesList "a") "f") = JVal.obj [("fg", JVal.str "blue")] ∧
    JVal.obj [("fg", JVal.str "blue")] ≠ JVal.str "red" := by
  refine ⟨rfl, ?_⟩
  simp

/-- C4, amended. For a theme set consisting exactly of the two-level
chain — `A` (document `aes`) inheriting `B` (document `bes`) inheriting
`C` (document `ces`), in any of the six list orders — two resolution
passes give `A`'s final document `C`'s value at every field `f` that is
missing from both `A` and `B`: three-or-more-level chains are not
required to resolve. (The hypotheses `hAinhAll`/`hBinhAll` state that
the `inherits` key, wherever it occurs in the document, carries the
parent's name — JS objects hold each key once.) -/
theorem c4_two_passes_resolve_chain
    (na nb nc f : String) (aes bes ces : List (String × JVal)) (v : JVal)
    (hab : na ≠ nb) (hac : na ≠ nc) (hbc : nb ≠ nc)
    (hAinh : lookupA aes "inherits" = some (JVal.str nb))
    (hAinhAll : ∀ p ∈ aes, p.1 = "inherits" → p.2 = JVal.str nb)
    (hBinh : lookupA bes "inherits" = some (JVal.str nc))
    (hBinhAll : ∀ p ∈ bes, p.1 = "inherits" → p.2 = JVal.str nc)
    (hCinh : lookupA ces "inherits" = none)
    (hfa : ∀ p ∈ aes, p.1 ≠ f) (hfb : ∀ p ∈ bes, p.1 ≠ f)
    (hfc : lookupA ces f = some v)
    (l : List (String × JVal))
    (hl : l = [(na, JVal.obj aes), (nb, JVal.obj bes), (nc, JVal.obj ces)] ∨
          l = [(na, JVal.obj aes), (nc, JVal.obj ces), (nb, JVal.obj bes)] ∨
          l = [(nb, JVal.obj bes), (na, JVal.obj aes), (nc, JVal.obj ces)] ∨
          l = [(nb, JVal.obj bes), (nc, JVal.obj ces), (na, JVal.obj aes)] ∨
          l = [(nc, JVal.obj ces), (na, JVal.obj aes), (nb, JVal.obj bes)] ∨
          l = [(nc, JVal.obj ces), (nb, JVal.obj bes), (na, JVal.obj aes)]) :
    jField (finalThemeDoc l na) f = v := by
  have hba : nb ≠ na := hab.symm
  have hca : nc ≠ na := hac.symm
  have hcb : nc ≠ nb := hbc.symm
  have H3 : ∀ p ∈ aes, p.1 = "inherits" → isObject p.2 = false := by
    intro p hp hpk
    rw [hAinhAll p hp hpk]
    rfl
  have H4 : ∀ p ∈ bes, p.1 = "inherits" → isObject p.2 = false := by
    intro p hp hpk
    rw [hBinhAll p hp hpk]
    rfl
  have Hfa : ∀ p ∈ aes, p.1 = f → isObject p.2 = false := by
    intro p hp hpk
    exact absurd hpk (hfa p hp)
  have Hfb : ∀ p ∈ bes, p.1 = f → isObject p.2 = false := by
    intro p hp hpk
    exact absurd hpk (hfb p hp)
  have H8 : ∀ p ∈ mergeEntries (mergeEntries bes aes) aes,
      p.1 = "inherits" → isObject p.2 = false := by
    intro p hp hpk
    have h1 := mem_mergeEntries_of_no_obj aes "inherits" H3 (mergeEntries bes aes) p hp hpk
    have h2 := mem_mergeEntries_of_no_obj aes "inherits" H3 bes p h1 hpk
    exact H4 p h2 hpk
  have HB1f : ∀ p ∈ mergeEntries (mergeEntries bes aes) aes,
      p.1 = f → isObject p.2 = false := by
    intro p hp hpk
    have h1 := mem_mergeEntries_of_no_obj aes f Hfa (mergeEntries bes aes) p hp hpk
    have h2 := mem_mergeEntries_of_no_obj aes f Hfa bes p h1 hpk
    exact absurd hpk (hfb p h2)
  have hB1inh : lookupA (mergeEntries (mergeEntries bes aes) aes) "inherits" =
      some (JVal.str nc) := by
    rw [lookupA_mergeEntries_of_no_obj aes _ H3, lookupA_mergeEntries_of_no_obj aes _ H3, hBinh]
  have hC1inh : lookupA
      (mergeEntries
        (mergeEntries ces (mergeEntries (mergeEntries bes aes) aes))
        (mergeEntries (mergeEntries bes aes) aes)) "inherits" = none := by
    rw [lookupA_mergeEntries_of_no_obj _ _ H8, lookupA_mergeEntries_of_no_obj _ _ H8, hCinh]
  have hC1binh : lookupA (mergeEntries (mergeEntries ces bes) bes) "inherits" = none := by
    rw [lookupA_mergeEntries_of_no_obj _ _ H4, lookupA_mergeEntries_of_no_obj _ _ H4, hCinh]
  have hC2inh : lookupA
      (mergeEntries
        (mergeEntries
          (mergeEntries
            (mergeEntries ces (mergeEntries (mergeEntries bes aes) aes))
            (mergeEntries (mergeEntries bes aes) aes))
          (mergeEntries (mergeEntries bes aes) aes))
        (mergeEntries (mergeEntries bes aes) aes)) "inherits" = none := by
    rw [lookupA_mergeEntries_of_no_obj _ _ H8, lookupA_mergeEntries_of_no_obj _ _ H8, hC1inh]
  have hC2binh : lookupA
      (mergeEntries
        (mergeEntries
          (mergeEntries (mergeEntries ces bes) bes)
          (mergeEntries (mergeEntries bes aes) aes))
        (mergeEntries (mergeEntries bes aes) aes)) "inherits" = none := by
    rw [lookupA_mergeEntries_of_no_obj _ _ H8, lookupA_mergeEntries_of_no_obj _ _ H8, hC1binh]
  have hfinal1 : lookupA
      (mergeEntries
        (mergeEntries
          (mergeEntries
            (mergeEntries ces (mergeEntries (mergeEntries bes aes) aes))
            (mergeEntries (mergeEntries bes aes) aes))
          (mergeEntries (mergeEntries bes aes) aes))
        (mergeEntries (mergeEntries bes aes) aes)) f = some v := by
    rw [lookupA_mergeEntries_of_no_obj _ _ HB1f, lookupA_mergeEntries_of_no_obj _ _ HB1f,
      lookupA_mergeEntries_of_no_obj _ _ HB1f, lookupA_mergeEntries_of_no_obj _ _ HB1f, hfc]
  have hfinal2 : lookupA
      (mergeEntries
        (mergeEntries
          (mergeEntries (mergeEntries ces bes) bes)
          (mergeEntries (mergeEntries bes aes) aes))
        (mergeEntries (mergeEntries bes aes) aes)) f = some v := by
    rw [lookupA_mergeEntries_of_no_obj _ _ HB1f, lookupA_mergeEntries_of_no_obj _ _ HB1f,
      lookupA_mergeEntries_of_no_obj _ _ Hfb, lookupA_mergeEntries_of_no_obj _ _ Hfb, hfc]
  rcases hl with h | h | h | h | h | h <;> subst h <;>
    simp [finalThemeDoc, themesAfterTwoPasses, resolvePass, resolveInheritedTheme,
      derefTheme, mergeDeep, updateA, lookupA, jField,
      hab, hac, hbc, hba, hca, hcb, hAinh, hBinh, hCinh, hB1inh, hC1inh, hC1binh, hC2inh,
      hC2binh, hfinal1, hfinal2]

/-- Witness for the amended C4 at a concrete three-theme chain: `a`
inherits `b`, `b` inherits `c`, and `c` alone defines
`keyword = "#112233"`; after two passes `a`'s document carries it. -/
theorem c4_two_passes_resolve_chain_witness :
    jField
      (finalThemeDoc
        [("a", JVal.obj [("inherits", JVal.str "b")]),
         ("b", JVal.obj [("inherits", JVal.str "c")]),
         ("c", JVal.obj [("keyword", JVal.str "#112233")])] "a") "keyword" =
      JVal.str "#112233" := by
  apply c4_two_passes_resolve_chain "a" "b" "c" "keyword"
    [("inherits", JVal.str "b")] [("inherits", JVal.str "c")]
    [("keyword", JVal.str "#112233")] (JVal.str "#112233")
  · decide
  · decide
  · decide
  · rfl
  · simp
  · rfl
  · simp
  · rfl
  · simp
  · simp
  · rfl
  · left
    rfl

/-! ## Lemmas about field assignment and normalization -/

theorem lookupA_setKey_same {α : Type} (es : List (String × α)) (k : String) (v : α) :
    lookupA (setKey es k v) k = some v := by
  induction es with
  | nil => simp [setKey, lookupA]
  | cons hd rest ih =>
      obtain ⟨k0, w⟩ := hd
      by_cases hk : k0 = k
      · subst hk
        simp [setKey, lookupA]
      · simp [setKey, lookupA, hk, ih]

/-- The normalization if-block for field `k` never touches another
field `k'`. -/
theorem jField_normalizeFieldJS_other (palette color : JVal) (k k' : String) (h : k ≠ k') :
    jField (normalizeFieldJS palette color k) k' = jField color k' := by
  unfold normalizeFieldJS
  cases hc : jField color k with
  | str s =>
      by_cases hhex : isHex s
      · simp [hhex]
      · simp only [hhex, if_false, Bool.false_eq_true]
        cases color with
        | obj es => simp [setField, jField, lookupA_setKey_ne _ _ _ _ h]
        | str s0 => simp [jField] at hc
        | arr a0 => simp [jField] at hc
        | undef => simp [jField] at hc
  | arr vs => simp
  | obj es => simp
  | undef => simp

/-- The normalization if-block for field `k`, on a color whose `k`
field is the string `s`: a `#`-string is left unchanged, any other
string is replaced by the palette's entry for it. -/
theorem jField_normalizeFieldJS_same (palette color : JVal) (k : String) (s : String)
    (h : jField color k = JVal.str s) :
    jField (normalizeFieldJS palette color k) k =
      (if isHex s then JVal.str s else jField palette s) := by
  unfold normalizeFieldJS
  rw [h]
  by_cases hhex : isHex s
  · simp [hhex, h]
  · simp only [hhex, if_false, Bool.false_eq_true]
    cases color with
    | obj es => simp [setField, jField, lookupA_setKey_same]
    | str s0 => simp [jField] at h
    | arr a0 => simp [jField] at h
    | undef => simp [jField] at h

/-- The normalization if-block leaves a color whose `k` field is not a
string entirely unchanged. -/
theorem normalizeFieldJS_nonstr (palette color : JVal) (k : String)
    (h : ∀ s : String, jField color k ≠ JVal.str s) :
    normalizeFieldJS palette color k = color := by
  unfold normalizeFieldJS
  cases hc : jField color k with
  | str s => exact absurd hc (h s)
  | arr vs => rfl
  | obj es => rfl
  | undef => rfl

/-! ## Claims C5-C8, C10: scope resolution and normalization -/

/-- C5. The claim states that every `fg`/`bg` of every scope of a fully
processed theme is a `#`-prefixed hex literal, never an unresolved
palette key, missing, or undefined. The code offers no such guarantee:
a palette lookup miss silently propagates `undefined`. At the failing
input — a theme whose `keyword` is the palette key `"missing"` with an
empty palette — the processed theme's `keyword` scope is
`{fg: undefined}`, and `undefined` is no `#`-string. -/
theorem c5_palette_miss_yields_undefined :
    (let theme : JVal := JVal.obj
        [("ui.background", JVal.obj [("bg", JVal.str "#111111"), ("fg", JVal.str "#eeeeee")]),
         ("keyword", JVal.str "missing"),
         ("palette", JVal.obj [])]
     lookupA (processTheme theme) "keyword") = some (JVal.obj [("fg", JVal.undef)]) ∧
    (∀ s : String, JVal.undef ≠ JVal.str s) := by
  refine ⟨rfl, ?_⟩
  intro s h
  cases h

/-- C6. The palette-normalization step, characterized exactly: for a
scope color and the theme's palette map, a string `fg` (resp. `bg`) not
beginning with `#` is replaced by the palette map's entry for that
name, a `#`-prefixed string is left unchanged, and a non-string field
is left unchanged. -/
theorem c6_normalize_color_fields (palette color : JVal) :
    (∀ s : String, jField color "fg" = JVal.str s →
        jField (normalizeColor palette color) "fg" =
          (if isHex s then JVal.str s else jField palette s)) ∧
    (∀ s : String, jField color "bg" = JVal.str s →
        jField (normalizeColor palette color) "bg" =
          (if isHex s then JVal.str s else jField palette s)) ∧
    ((∀ s : String, jField color "fg" ≠ JVal.str s) →
        jField (normalizeColor palette color) "fg" = jField color "fg") := by
  have hfgbg : ("fg" : String) ≠ "bg" := by decide
  have hbgfg : ("bg" : String) ≠ "fg" := by decide
  refine ⟨?_, ?_, ?_⟩
  · intro s h
    unfold normalizeColor
    rw [jField_normalizeFieldJS_other palette _ "bg" "fg" hbgfg,
      jField_normalizeFieldJS_same palette color "fg" s h]
  · intro s h
    unfold normalizeColor
    rw [jField_normalizeFieldJS_same palette _ "bg" s]
    rw [jField_normalizeFieldJS_other palette color "fg" "bg" hfgbg, h]
  · intro h
    unfold normalizeColor
    rw [jField_normalizeFieldJS_other palette _ "bg" "fg" hbgfg,
      normalizeFieldJS_nonstr palette color "fg" h]

/-- Witness for C6 at a concrete palette and colors: a palette-key `fg`
is replaced by the palette entry, a `#`-literal `bg` survives, and an
absent `fg` stays absent. -/
theorem c6_normalize_color_fields_witness :
    jField
        (normalizeColor (JVal.obj [("rosewater", JVal.str "#f5e0dc")])
          (JVal.obj [("fg", JVal.str "rosewater"), ("bg", JVal.str "#181825")]))
        "fg" = JVal.str "#f5e0dc" ∧
    jField
        (normalizeColor (JVal.obj [("rosewater", JVal.str "#f5e0dc")])
          (JVal.obj [("fg", JVal.str "rosewater"), ("bg", JVal.str "#181825")]))
        "bg" = JVal.str "#181825" ∧
    jField (normalizeColor (JVal.obj []) (JVal.obj [])) "fg" = JVal.undef := by
  refine ⟨?_, ?_, ?_⟩
  · have h := (c6_normalize_color_fields (JVal.obj [("rosewater", JVal.str "#f5e0dc")])
      (JVal.obj [("fg", JVal.str "rosewater"), ("bg", JVal.str "#181825")])).1
      "rosewater" rfl
    rwa [if_neg (by decide)] at h
  · have h := (c6_normalize_color_fields (JVal.obj [("rosewater", JVal.str "#f5e0dc")])
      (JVal.obj [("fg", JVal.str "rosewater"), ("bg", JVal.str "#181825")])).2.1
      "#181825" rfl
    rwa [if_pos (by decide)] at h
  · have h := (c6_normalize_color_fields (JVal.obj []) (JVal.obj [])).2.2
      (fun s hs => by cases hs)
    exact h

/-- C7, counterexample to the claim as stated. At the claim's input
theme, the resolved `variable` scope is the bare string `"#eeeeee"`
(`getColor`'s fallback returns `background.fg` itself, not a
`{fg: ...}` pair), so `variable.fg` is `undefined`, not `"#eeeeee"`;
likewise `function.fg`. -/
theorem c7_variable_fg_undefined :
    (let theme : JVal := JVal.obj
        [("ui.background", JVal.obj [("bg", JVal.str "#111111"), ("fg", JVal.str "#eeeeee")]),
         ("keyword", JVal.str "#ff0000"),
         ("palette", JVal.obj [])]
     jField ((lookupA (processTheme theme) "variable").getD JVal.undef) "fg") = JVal.undef ∧
    JVal.undef ≠ JVal.str "#eeeeee" := by
  refine ⟨rfl, ?_⟩
  intro h
  cases h

/-- C7, amended. At the claim's input theme the resolved scope map
holds `variable = "#eeeeee"` (the background foreground, as a bare
string value), `keyword = {fg: "#ff0000"}` (so `keyword.fg` is
`"#ff0000"` as claimed), and `function` and `function.macro` both
resolve — via `variable` resp. `function` — to the same bare string
`"#eeeeee"`. -/
theorem c7_resolved_values :
    (let theme : JVal := JVal.obj
        [("ui.background", JVal.obj [("bg", JVal.str "#111111"), ("fg", JVal.str "#eeeeee")]),
         ("keyword", JVal.str "#ff0000"),
         ("palette", JVal.obj [])]
     lookupA (processTheme theme) "variable" = some (JVal.str "#eeeeee") ∧
     lookupA (processTheme theme) "keyword" = some (JVal.obj [("fg", JVal.str "#ff0000")]) ∧
     lookupA (processTheme theme) "function" = some (JVal.str "#eeeeee") ∧
     lookupA (processTheme theme) "function.macro" = some (JVal.str "#eeeeee")) :=
  ⟨rfl, rfl, rfl, rfl⟩

/-- C8, counterexample to the claim as stated. The resolved `ui.cursor`
scope does not use the theme's own `ui.cursor` value: `getUiCursor`
reads the key `"ui.cursor.primary"`. At a theme defining
`ui.cursor = "#123456"` (and no `ui.cursor.primary`), the resolved
`ui.cursor` is the background foreground `"#eeeeee"`. -/
theorem c8_ui_cursor_ignores_ui_cursor_key :
    (let theme : JVal := JVal.obj
        [("ui.background", JVal.obj [("bg", JVal.str "#111111"), ("fg", JVal.str "#eeeeee")]),
         ("ui.cursor", JVal.str "#123456"),
         ("palette", JVal.obj [])]
     jField theme "ui.cursor" = JVal.str "#123456" ∧
     lookupA (processTheme theme) "ui.cursor" = some (JVal.str "#eeeeee")) ∧
    JVal.str "#eeeeee" ≠ JVal.str "#123456" := by
  refine ⟨⟨rfl, rfl⟩, ?_⟩
  simp

/-- C8, amended. The resolved `ui.cursor` scope uses the theme's
`ui.cursor.primary` value when present (a string becoming a
`{fg: ...}` pair), and otherwise falls back directly to the background
foreground, bypassing the `ui.highlight` fallback chain. -/
theorem c8_ui_cursor_uses_primary (theme : JVal) :
    lookupA (resolveScopes theme) "ui.cursor" = some (getUiCursor theme) ∧
    (∀ s : String, jField theme "ui.cursor.primary" = JVal.str s →
        getUiCursor theme = JVal.obj [("fg", JVal.str s)]) ∧
    (jField theme "ui.cursor.primary" = JVal.undef →
        getUiCursor theme = jField (background theme) "fg") := by
  refine ⟨rfl, ?_, ?_⟩
  · intro s h
    simp [getUiCursor, getFallbackColor, h]
  · intro h
    simp [getUiCursor, getFallbackColor, h, truthy]

/-- Witness for the amended C8 at a concrete theme defining
`ui.cursor.primary = "#222222"`. -/
theorem c8_ui_cursor_uses_primary_witness :
    getUiCursor (JVal.obj [("ui.cursor.primary", JVal.str "#222222")]) =
      JVal.obj [("fg", JVal.str "#222222")] :=
  (c8_ui_cursor_uses_primary (JVal.obj [("ui.cursor.primary", JVal.str "#222222")])).2.1
    "#222222" rfl

/-- C10. When a theme's `ui.background` table defines no `fg` (or a
falsy one), the computed background pair defaults its `fg` to the
literal `"#ffaaaa"` while taking `bg` from the theme as-is (possibly
`undefined`); through the fallback chains this default then feeds
scopes the theme omits, e.g. `variable`. -/
theorem c10_background_fg_default (theme : JVal)
    (h : truthy (jField (jField theme "ui.background") "fg") = false) :
    background theme =
      JVal.obj
        [("bg", jField (jField theme "ui.background") "bg"), ("fg", JVal.str "#ffaaaa")] ∧
    (jField theme "variable" = JVal.undef → getVariable theme = JVal.str "#ffaaaa") := by
  have hbg : background theme =
      JVal.obj
        [("bg", jField (jField theme "ui.background") "bg"), ("fg", JVal.str "#ffaaaa")] := by
    simp [background, orJS, h]
  refine ⟨hbg, ?_⟩
  intro hv
  unfold getVariable getColor
  rw [hv, hbg]
  simp [truthy, jField, lookupA]

/-- Witness for C10 at a theme whose `ui.background` is the empty
table. -/
theorem c10_background_fg_default_witness :
    background (JVal.obj [("ui.background", JVal.obj [])]) =
      JVal.obj [("bg", JVal.undef), ("fg", JVal.str "#ffaaaa")] ∧
    getVariable (JVal.obj [("ui.background", JVal.obj [])]) = JVal.str "#ffaaaa" := by
  have h := c10_background_fg_default (JVal.obj [("ui.background", JVal.obj [])]) rfl
  exact ⟨h.1, h.2 rfl⟩

/-! ## Claim C9: the scaffold generator -/

/-- C9, counterexample to the claim as stated. The generator derives a
file's export name as `file.slice(0, -6)` — it strips six characters,
the length of `.astro`. For a listing `["a.ext", "b.ext"]` the derived
names are both the empty string, so the emitted mapping object's keys
are not `a` and `b`. -/
theorem c9_ext_files_give_empty_keys :
    generateFileContents ["a.ext", "b.ext"] exportedObjectGen = "\n\t,\n\t," ∧
    "\n\t,\n\t," ≠ "\n\ta,\n\tb," := by
  refine ⟨rfl, ?_⟩
  decide

/-- C9, amended. For a folder listing of `.astro` files `a.astro`,
`b.astro` — the only extension the generator's six-character strip
handles — the emitted mapping object has exactly the keys `a` and `b`
in listing order, the import block names them in the same order, and a
second run over the same folder (whose listing now also contains the
generated `index.astro`, which the generator skips) produces
byte-identical index content. -/
theorem c9_astro_scaffold :
    generateFileContents ["a.astro", "b.astro"] exportedObjectGen = "\n\ta,\n\tb," ∧
    generateFileContents ["a.astro", "b.astro"] importStatementGen =
      "\nimport a from \"./a.astro\";\nimport b from \"./b.astro\";" ∧
    indexAstroContent ["a.astro", "b.astro", "index.astro"] =
      indexAstroContent ["a.astro", "b.astro"] :=
  ⟨rfl, rfl, rfl⟩
